import Mathlib

/-!
Verification of the streaming alpha-signal and backtest core.

Shallow embedding, over exact rationals, of the components of the
multi-feed alpha-generation engine that the checked claims touch:

* the candle aggregator (`src/unnamed/part_000`),
* the microstructure analyzer (`src/src/alpha/microstructure.cpp`),
* the order-flow engine (`src/src/alpha/orderflow.cpp`),
* the regime detector's Hurst estimator (`src/unnamed/part_002`),
* the PnL tracker (`src/src/backtest/pnl.cpp`),
* the backtester and performance metrics
  (`src/src/backtest/backtester.cpp`, `src/src/backtest/sharpe.cpp`).

C++ `double` values are embedded as `ℚ`; the source's floating-point
arithmetic on these paths is plain field arithmetic, comparisons and
min/max, all of which transfer. Where the source applies `std::log` or
`std::sqrt`, the embedding abstracts the transcendental function as a
parameter (`rlog`, `rsqrt : ℚ → ℚ`): every theorem below quantifies over
the parameter, so each holds in particular for the real logarithm and
square root; none of the verified properties depends on their values.
-/

/-- Embeds `MarketTick` from `include/util/market_types.h`: symbol, price,
volume, and a millisecond timestamp. -/
structure MarketTick where
  symbol : String
  price : ℚ
  volume : ℚ
  timestamp : Int
deriving DecidableEq, Repr

/-- Embeds `Candle` from `include/util/market_types.h`. The C++ field `open` is a
Lean keyword and is embedded as `openPrice`; the `time_point` fields are
embedded as millisecond counts. -/
structure Candle where
  openPrice : ℚ
  high : ℚ
  low : ℚ
  close : ℚ
  volume : ℚ
  startTime : Int
  endTime : Int
deriving DecidableEq, Repr

/-! ## Candle aggregator (`CandleAggregator`, src/unnamed/part_000) -/

/-- The mutable state of `CandleAggregator`: configuration
`intervalSeconds`, the `hasCandle` flag, the running candle and its start
instant (milliseconds). -/
structure AggState where
  intervalSeconds : Int
  hasCandle : Bool
  candleStart : Int
  currentCandle : Candle
deriving DecidableEq, Repr

/-- Embeds `CandleAggregator(intervalSeconds)`: no candle yet; the `currentCandle`
member is value-initialized (all fields zero). -/
def aggInit (intervalSeconds : Int) : AggState :=
  { intervalSeconds := intervalSeconds
    hasCandle := false
    candleStart := 0
    currentCandle := ⟨0, 0, 0, 0, 0, 0, 0⟩ }

/-- Embeds `duration_cast<seconds>(timestamp - candleStart).count()`: whole
seconds elapsed between two millisecond instants, truncated toward zero as
`duration_cast` does. -/
def elapsedSeconds (timestamp candleStart : Int) : Int :=
  (timestamp - candleStart).tdiv 1000

/-- Embeds `CandleAggregator::onTick(price, volume, timestamp)`. Returns the new
state together with the candle passed to `onCandleClosed`, when one is
emitted. Mirrors the source: the first tick seeds the candle; every later
tick first updates high/low/close/volume/end, and only then, if the
elapsed seconds reach `intervalSeconds`, the (already updated) candle is
emitted and replaced by a fresh candle at the tick's price with volume
zero. -/
def aggOnTick (s : AggState) (price volume : ℚ) (timestamp : Int) :
    AggState × Option Candle :=
  if s.hasCandle = false then
    ({ s with
        hasCandle := true
        candleStart := timestamp
        currentCandle := ⟨price, price, price, price, volume, timestamp, timestamp⟩ },
      none)
  else
    let elapsed := elapsedSeconds timestamp s.candleStart
    let updated : Candle :=
      { openPrice := s.currentCandle.openPrice
        high := max s.currentCandle.high price
        low := min s.currentCandle.low price
        close := price
        volume := s.currentCandle.volume + volume
        startTime := s.currentCandle.startTime
        endTime := timestamp }
    if s.intervalSeconds ≤ elapsed then
      ({ s with
          candleStart := timestamp
          currentCandle := ⟨price, price, price, price, 0, timestamp, timestamp⟩ },
        some updated)
    else
      ({ s with currentCandle := updated }, none)

/-- Feed a list of `(price, volume, timestamp)` ticks through the
aggregator and collect every candle handed to `onCandleClosed`, in
emission order. -/
def aggRun (s : AggState) : List (ℚ × ℚ × Int) → AggState × List Candle
  | [] => (s, [])
  | t :: ts =>
      let (s', emitted) := aggOnTick s t.1 t.2.1 t.2.2
      let (sFinal, rest) := aggRun s' ts
      (sFinal, (emitted.toList) ++ rest)

/-- The candles emitted on a tick list, starting from a fresh aggregator. -/
def aggEmitted (intervalSeconds : Int) (ticks : List (ℚ × ℚ × Int)) : List Candle :=
  (aggRun (aggInit intervalSeconds) ticks).2

/-! ## Microstructure analyzer (`MicrostructureAnalyzer`,
src/src/alpha/microstructure.cpp) -/

/-- Embeds `TradeSide` from `include/alpha/microstructure.h`. -/
inductive TradeSide where
  | BUY
  | SELL
  | UNKNOWN
deriving DecidableEq, Repr

/-- Embeds `TradeClassification`: side plus signed volume (positive = buy,
negative = sell). -/
structure TradeClassification where
  side : TradeSide
  signedVolume : ℚ
deriving DecidableEq, Repr

/-- Embeds `VPINMetrics` from `include/alpha/microstructure.h`. -/
structure VPINMetrics where
  vpin : ℚ
  toxicity : ℚ
  buyVolume : ℚ
  sellVolume : ℚ
  imbalance : ℚ
deriving DecidableEq, Repr

/-- Push onto the back of a bounded deque: `push_back` followed by a
`pop_front` when the size exceeds `cap`, as the analyzer does for its
1000-entry histories and the VPIN bucket window. -/
def pushCap {α : Type} (cap : ℕ) (l : List α) (x : α) : List α :=
  if cap < (l ++ [x]).length then (l ++ [x]).tail else l ++ [x]

/-- The mutable state of `MicrostructureAnalyzer`. The `bucketsCompleted`
field is a ghost counter of how many volume buckets have been closed; it
is written together with every `volumeBuckets_.push_back` and read by no
operation, so it does not influence behavior. -/
structure MicroState where
  bucketSize : ℕ
  vpinWindow : ℕ
  impactWindow : ℕ
  tradeHistory : List MarketTick
  classifiedTrades : List TradeClassification
  volumeBuckets : List ℚ
  currentBucketVolume : ℚ
  currentBucketBuyVolume : ℚ
  isCurrentBucketBuy : Bool
  priceChanges : List ℚ
  signedVolumes : List ℚ
  lastPrice : ℚ
  lastMidPrice : ℚ
  cumulativeVolume : ℚ
  cumulativeBuyVolume : ℚ
  cumulativeSellVolume : ℚ
  bucketsCompleted : ℕ
deriving DecidableEq, Repr

/-- The constructor `MicrostructureAnalyzer(bucketSize, vpinWindow,
impactWindow)`. -/
def microInit (bucketSize vpinWindow impactWindow : ℕ) : MicroState :=
  { bucketSize := bucketSize
    vpinWindow := vpinWindow
    impactWindow := impactWindow
    tradeHistory := []
    classifiedTrades := []
    volumeBuckets := []
    currentBucketVolume := 0
    currentBucketBuyVolume := 0
    isCurrentBucketBuy := true
    priceChanges := []
    signedVolumes := []
    lastPrice := 0
    lastMidPrice := 0
    cumulativeVolume := 0
    cumulativeBuyVolume := 0
    cumulativeSellVolume := 0
    bucketsCompleted := 0 }

/-- Embeds `MicrostructureAnalyzer::inferTradeSide` (tick rule): no history means
UNKNOWN; a higher price than the last is a BUY, a lower one a SELL, and an
unchanged price inherits the previous classification's side. -/
def inferTradeSide (s : MicroState) (price : ℚ) : TradeSide :=
  if s.lastPrice ≤ 0 then TradeSide.UNKNOWN
  else if s.lastPrice < price then TradeSide.BUY
  else if price < s.lastPrice then TradeSide.SELL
  else
    match s.classifiedTrades.getLast? with
    | none => TradeSide.UNKNOWN
    | some c => c.side

/-- Embeds `MicrostructureAnalyzer::classifyTrade`: quote rule against the
midpoint when both quotes are positive, else the tick rule; the signed
volume is `+volume` exactly for BUY. -/
def classifyTrade (s : MicroState) (price volume bidPrice askPrice : ℚ) :
    TradeClassification :=
  if 0 < bidPrice ∧ 0 < askPrice then
    let midPrice := (bidPrice + askPrice) / 2
    if midPrice < price then ⟨TradeSide.BUY, volume⟩
    else if price < midPrice then ⟨TradeSide.SELL, -volume⟩
    else
      let side := inferTradeSide s price
      ⟨side, if side = TradeSide.BUY then volume else -volume⟩
  else
    let side := inferTradeSide s price
    ⟨side, if side = TradeSide.BUY then volume else -volume⟩

/-- Embeds `MicrostructureAnalyzer::updateVPINBuckets`: accumulate the absolute
signed volume, and the buy side of it, into the running bucket; when the
bucket reaches `bucketSize_`, push `|2·buy − total|` into the bucket deque
(capped at `vpinWindow_`) and reset the running totals. The ghost
`bucketsCompleted` counts the pushes. -/
def updateVPINBuckets (s : MicroState) (trade : TradeClassification) : MicroState :=
  let vol := |trade.signedVolume|
  let cbv := s.currentBucketVolume + vol
  let cbb :=
    if trade.side = TradeSide.BUY then s.currentBucketBuyVolume + vol
    else s.currentBucketBuyVolume
  if (s.bucketSize : ℚ) ≤ cbv then
    { s with
        volumeBuckets := pushCap s.vpinWindow s.volumeBuckets (|2 * cbb - cbv|)
        currentBucketVolume := 0
        currentBucketBuyVolume := 0
        bucketsCompleted := s.bucketsCompleted + 1 }
  else
    { s with currentBucketVolume := cbv, currentBucketBuyVolume := cbb }

/-- Embeds `MicrostructureAnalyzer::updatePriceImpact`: push the price change and
signed volume, evicting the oldest pair past `impactWindow_`. -/
def updatePriceImpact (s : MicroState) (priceChange signedVolume : ℚ) : MicroState :=
  { s with
      priceChanges := pushCap s.impactWindow s.priceChanges priceChange
      signedVolumes := pushCap s.impactWindow s.signedVolumes signedVolume }

/-- Embeds `MicrostructureAnalyzer::onTick`: classify (the call passes no quotes,
so `bidPrice = askPrice = 0`), append to the 1000-capped histories, update
the cumulative volumes, the VPIN buckets, and — once a previous price
exists — the price-impact window; finally remember the price. -/
def microOnTick (s : MicroState) (tick : MarketTick) : MicroState :=
  let classification := classifyTrade s tick.price tick.volume 0 0
  let s := { s with
      tradeHistory := pushCap 1000 s.tradeHistory tick
      classifiedTrades := pushCap 1000 s.classifiedTrades classification
      cumulativeVolume := s.cumulativeVolume + tick.volume
      cumulativeBuyVolume :=
        if classification.side = TradeSide.BUY then
          s.cumulativeBuyVolume + tick.volume
        else s.cumulativeBuyVolume
      cumulativeSellVolume :=
        if classification.side = TradeSide.SELL then
          s.cumulativeSellVolume + tick.volume
        else s.cumulativeSellVolume }
  let s := updateVPINBuckets s classification
  let s :=
    if 0 < s.lastPrice then
      updatePriceImpact s (tick.price - s.lastPrice) classification.signedVolume
    else s
  { s with lastPrice := tick.price }

/-- Embeds `MicrostructureAnalyzer::computeVPIN`: zero with fewer than two
buckets in the deque, else the bucket-imbalance mean normalized by the
bucket size and clamped to `[0, 1]`. -/
def computeVPIN (s : MicroState) : ℚ :=
  if s.volumeBuckets.length < 2 then 0
  else
    let avgImbalance := s.volumeBuckets.sum / (s.volumeBuckets.length : ℚ)
    let vpin := avgImbalance / (s.bucketSize : ℚ)
    min (max vpin 0) 1

/-- The recent-trade window of `MicrostructureAnalyzer::getVPIN`: the
last `min(size, 50)` classified trades. -/
def microRecent (s : MicroState) : List TradeClassification :=
  s.classifiedTrades.drop
    (s.classifiedTrades.length - min s.classifiedTrades.length 50)

/-- Embeds `recentBuy` of `getVPIN`: the signed volume summed over the BUY
trades of the recent window. -/
def microRecentBuy (s : MicroState) : ℚ :=
  ((microRecent s).map fun c =>
    if c.side = TradeSide.BUY then c.signedVolume else 0).sum

/-- Embeds `recentSell` of `getVPIN`: the absolute signed volume summed over the
SELL trades of the recent window. -/
def microRecentSell (s : MicroState) : ℚ :=
  ((microRecent s).map fun c =>
    if c.side = TradeSide.SELL then |c.signedVolume| else 0).sum

/-- Embeds `metrics.imbalance` of `getVPIN`: `|buy − sell| / (buy + sell)`, zero
when the total is not positive. -/
def microImbalance (s : MicroState) : ℚ :=
  if 0 < microRecentBuy s + microRecentSell s then
    |microRecentBuy s - microRecentSell s| / (microRecentBuy s + microRecentSell s)
  else 0

/-- Embeds `MicrostructureAnalyzer::getVPIN`: VPIN, the buy/sell volume over the
most recent `min(size, 50)` classified trades, their normalized imbalance,
and toxicity = VPIN · imbalance. -/
def getVPIN (s : MicroState) : VPINMetrics :=
  { vpin := computeVPIN s
    toxicity := computeVPIN s * microImbalance s
    buyVolume := microRecentBuy s
    sellVolume := microRecentSell s
    imbalance := microImbalance s }

/-- Run the analyzer over a tick list from a freshly constructed state. -/
def microRun (bucketSize vpinWindow impactWindow : ℕ) (ticks : List MarketTick) :
    MicroState :=
  ticks.foldl microOnTick (microInit bucketSize vpinWindow impactWindow)

/-! ## Order-flow engine (src/src/alpha/orderflow.cpp)

The class declarations live in `alpha/orderflow.h`, which is not part of
the source snapshot; the member lists, result-struct field orders and the
recent-delta cap are read off their uses in `orderflow.cpp` (brace
initializers fix the field order) and, for the cap of 50, modelled from
the spec's "recent-50 deque sum". -/

/-- Embeds `OFIResult`, in the field order of the brace initializer in
`OrderFlowImbalance::getOFI`. -/
structure OFIResult where
  imbalance : ℚ
  bidPressure : ℚ
  askPressure : ℚ
  aggression : ℚ
  momentum : ℚ
  timestamp : Int
deriving DecidableEq, Repr

/-- The deques of `OrderFlowImbalance`, plus its construction-time
`window_`. -/
structure OFIState where
  window : ℕ
  buyVolumes : List ℚ
  buyPrices : List ℚ
  sellVolumes : List ℚ
  sellPrices : List ℚ
  timestamps : List Int
deriving DecidableEq, Repr

/-- Embeds `OrderFlowImbalance(window)`: empty deques. -/
def ofiInit (window : ℕ) : OFIState :=
  { window := window, buyVolumes := [], buyPrices := []
    sellVolumes := [], sellPrices := [], timestamps := [] }

/-- One iteration of the window-maintenance loop in
`OrderFlowImbalance::onTrade`: pop the front of the buy deques if
non-empty, of the sell deques if non-empty, and of the timestamps if
non-empty. The three pops read pairwise disjoint deques, so the
sequential source loop body is this simultaneous field update. -/
def ofiEvictStep (s : OFIState) : OFIState :=
  { window := s.window
    buyVolumes := if s.buyVolumes.isEmpty then s.buyVolumes else s.buyVolumes.tail
    buyPrices := if s.buyVolumes.isEmpty then s.buyPrices else s.buyPrices.tail
    sellVolumes := if s.sellVolumes.isEmpty then s.sellVolumes else s.sellVolumes.tail
    sellPrices := if s.sellVolumes.isEmpty then s.sellPrices else s.sellPrices.tail
    timestamps := if s.timestamps.isEmpty then s.timestamps else s.timestamps.tail }

/-- The body of the `while (buy.size() + sell.size() > window_)` loop of
`OrderFlowImbalance::onTrade`, run for at most `fuel` iterations. Each
iteration strictly shrinks the combined volume-deque size while the
condition holds, so with `fuel` equal to that size the recursion
reproduces the loop exactly. -/
def ofiEvictLoop : ℕ → OFIState → OFIState
  | 0, s => s
  | fuel + 1, s =>
      if s.window < s.buyVolumes.length + s.sellVolumes.length then
        ofiEvictLoop fuel (ofiEvictStep s)
      else s

/-- The `while (buy.size() + sell.size() > window_)` loop of
`OrderFlowImbalance::onTrade`: the combined volume-deque size bounds the
number of iterations, so the loop is `ofiEvictLoop` with that fuel. -/
def ofiEvict (s : OFIState) : OFIState :=
  ofiEvictLoop (s.buyVolumes.length + s.sellVolumes.length) s

/-- Embeds `OrderFlowImbalance::onTrade(price, volume, isBuy, timestamp)`: push
onto the matching side and the timestamps, then run the eviction loop. -/
def ofiOnTrade (s : OFIState) (price volume : ℚ) (isBuy : Bool) (timestamp : Int) :
    OFIState :=
  let s :=
    if isBuy then
      { s with buyVolumes := s.buyVolumes ++ [volume]
               buyPrices := s.buyPrices ++ [price] }
    else
      { s with sellVolumes := s.sellVolumes ++ [volume]
               sellPrices := s.sellPrices ++ [price] }
  ofiEvict { s with timestamps := s.timestamps ++ [timestamp] }

/-- Embeds `OrderFlowImbalance::computeImbalance`: `(ΣB − ΣS)/(ΣB + ΣS)`, zero
when the total is below `1e-10`. -/
def computeImbalance (s : OFIState) : ℚ :=
  let buyVol := s.buyVolumes.sum
  let sellVol := s.sellVolumes.sum
  let totalVol := buyVol + sellVol
  if totalVol < 1 / 10000000000 then 0 else (buyVol - sellVol) / totalVol

/-- Embeds `OrderFlowImbalance::computeAggression`: the fraction of windowed
trade volumes strictly above 1.5 times the median (the element at index
`size / 2` of the sorted volumes). -/
def computeAggression (s : OFIState) : ℚ :=
  let allVolumes := s.buyVolumes ++ s.sellVolumes
  if allVolumes.isEmpty then 0
  else
    let sorted := allVolumes.insertionSort (· ≤ ·)
    let median := sorted.getD (allVolumes.length / 2) 0
    let threshold := median * 3 / 2
    ((allVolumes.filter fun v => threshold < v).length : ℚ) / (allVolumes.length : ℚ)

/-- The index loop of `OrderFlowImbalance::computeMomentum`: iterate `i`
over the timestamp count; `buyIdx`/`sellIdx` advance once per iteration
while in range, so iteration `i` adds `buy[i]` (resp. `sell[i]`) when `i`
is in range, to the recent sums when `i ≥ halfWindow` and to the old sums
otherwise. Accumulator: (recentBuy, recentSell, oldBuy, oldSell). -/
def momentumSums (buy sell : List ℚ) (halfWindow nTs : ℕ) : ℚ × ℚ × ℚ × ℚ :=
  (List.range nTs).foldl
    (fun acc i =>
      let (rb, rs, ob, os) := acc
      let isRecent := halfWindow ≤ i
      let (rb, ob) :=
        if i < buy.length then
          if isRecent then (rb + buy.getD i 0, ob) else (rb, ob + buy.getD i 0)
        else (rb, ob)
      let (rs, os) :=
        if i < sell.length then
          if isRecent then (rs + sell.getD i 0, os) else (rs, os + sell.getD i 0)
        else (rs, os)
      (rb, rs, ob, os))
    (0, 0, 0, 0)

/-- Embeds `OrderFlowImbalance::computeMomentum`: recent-half imbalance minus
old-half imbalance, splitting at `window_ / 2`; zero with fewer than two
timestamps. -/
def computeMomentum (s : OFIState) : ℚ :=
  if s.timestamps.length < 2 then 0
  else
    let (rb, rs, ob, os) :=
      momentumSums s.buyVolumes s.sellVolumes (s.window / 2) s.timestamps.length
    let recentImb := if 0 < rb + rs then (rb - rs) / (rb + rs) else 0
    let oldImb := if 0 < ob + os then (ob - os) / (ob + os) else 0
    recentImb - oldImb

/-- Embeds `OrderFlowImbalance::getOFI`: `nullopt` when both volume deques are
empty; otherwise the imbalance, the bid/ask pressures (each `0.5` when the
windowed total volume is not positive), the aggression, the momentum, and
the last timestamp. -/
def getOFI (s : OFIState) : Option OFIResult :=
  if s.buyVolumes.isEmpty ∧ s.sellVolumes.isEmpty then none
  else
    let buyVol := s.buyVolumes.sum
    let sellVol := s.sellVolumes.sum
    let totalVol := buyVol + sellVol
    let bidPressure := if 0 < totalVol then buyVol / totalVol else 1 / 2
    let askPressure := if 0 < totalVol then sellVol / totalVol else 1 / 2
    some
      { imbalance := computeImbalance s
        bidPressure := bidPressure
        askPressure := askPressure
        aggression := computeAggression s
        momentum := computeMomentum s
        timestamp := s.timestamps.getLastD 0 }

/-- Embeds `PressureResult` from the brace initializer in
`BidAskPressure::getPressure`: bid volume, ask volume, imbalance ratio,
dominant side. -/
structure PressureResult where
  bidVolume : ℚ
  askVolume : ℚ
  imbalanceRatio : ℚ
  dominantSide : ℚ
deriving DecidableEq, Repr

/-- Embeds `BidAskPressure::onTrade`: push the volume onto the matching side,
then trim each deque independently to `window`. -/
def pressureOnTrade (window : ℕ) (bidVolumes askVolumes : List ℚ)
    (isBuy : Bool) (volume : ℚ) : List ℚ × List ℚ :=
  let bid := if isBuy then bidVolumes ++ [volume] else bidVolumes
  let ask := if isBuy then askVolumes else askVolumes ++ [volume]
  (bid.drop (bid.length - window), ask.drop (ask.length - window))

/-- Embeds `BidAskPressure::getPressure`: ratio `(B − A)/(B + A)` (zero on zero
total) and the ±1/0 dominant side at the ±0.1 thresholds. -/
def getPressure (bidVolumes askVolumes : List ℚ) : PressureResult :=
  let bidVol := bidVolumes.sum
  let askVol := askVolumes.sum
  let total := bidVol + askVol
  let ratio := if 0 < total then (bidVol - askVol) / total else 0
  let dominant : ℚ :=
    if 1 / 10 < ratio then 1 else if ratio < -(1 / 10) then -1 else 0
  ⟨bidVol, askVol, ratio, dominant⟩

/-- Embeds `TradeAggression::onTrade`: the signed score
`±(volume/avgVolume − 1)` (zero when the average volume is not positive),
pushed onto the `window`-capped score deque. -/
def aggressionOnTrade (window : ℕ) (scores : List ℚ)
    (volume avgVolume : ℚ) (isBuy : Bool) : List ℚ :=
  let score := if 0 < avgVolume then volume / avgVolume - 1 else 0
  let score := if isBuy then score else -score
  pushCap window scores score

/-- Embeds `TradeAggression::getAggression`: the mean of the windowed scores,
zero when empty. -/
def getAggression (scores : List ℚ) : ℚ :=
  if scores.isEmpty then 0 else scores.sum / (scores.length : ℚ)

/-- Embeds `FlowToxicity::update`: toxicity is the 0.4/0.3/0.3-weighted
combination of `(|ofi|+1)/2`, `(|pressure|+1)/2` and `min(1, |aggr|)`. -/
def toxicityUpdate (ofi pressure aggression : ℚ) : ℚ :=
  let ofiNorm := (|ofi| + 1) / 2
  let pressureNorm := (|pressure| + 1) / 2
  let aggressionNorm := min 1 |aggression|
  (2 / 5) * ofiNorm + (3 / 10) * pressureNorm + (3 / 10) * aggressionNorm

/-- Embeds `OrderFlowSignal`, in the field order of the brace initializer in
`OrderFlowEngine::onTick`. -/
structure OrderFlowSignal where
  imbalance : ℚ
  bidPressure : ℚ
  askPressure : ℚ
  aggression : ℚ
  volumeDelta : ℚ
  toxicity : ℚ
  isToxicFlow : Bool
  flowDirection : String
  timestamp : Int
deriving DecidableEq, Repr

/-- The mutable state of `OrderFlowEngine` and its subcomponents:
`ofi_`, `pressure_` (bid/ask deques with their window), `aggression_`
(score deque with its window), `volumeDelta_` (cumulative delta plus the
50-capped recent deque), `toxicity_` (score and threshold), and the
running `avgVolume_`/`tickCount_`. -/
structure EngineState where
  ofi : OFIState
  pressureWindow : ℕ
  bidVolumes : List ℚ
  askVolumes : List ℚ
  aggressionWindow : ℕ
  aggressionScores : List ℚ
  cumulativeDelta : ℚ
  recentDeltas : List ℚ
  toxicity : ℚ
  toxicityThreshold : ℚ
  avgVolume : ℚ
  tickCount : ℕ
deriving DecidableEq, Repr

/-- A freshly constructed `OrderFlowEngine` with the given component
windows and toxicity threshold (the construction parameters live in the
missing header; every theorem quantifies over them or fixes them
concretely). -/
def engineInit (ofiWindow pressureWindow aggressionWindow : ℕ)
    (toxicityThreshold : ℚ) : EngineState :=
  { ofi := ofiInit ofiWindow
    pressureWindow := pressureWindow
    bidVolumes := []
    askVolumes := []
    aggressionWindow := aggressionWindow
    aggressionScores := []
    cumulativeDelta := 0
    recentDeltas := []
    toxicity := 0
    toxicityThreshold := toxicityThreshold
    avgVolume := 0
    tickCount := 0 }

/-- Embeds `OrderFlowEngine::determineFlowDirection`: label by `(ofi+pressure)/2`
against the ±0.2 thresholds. -/
def determineFlowDirection (ofi pressure : ℚ) : String :=
  let combined := (ofi + pressure) / 2
  if 1 / 5 < combined then "BUY_DOMINANT"
  else if combined < -(1 / 5) then "SELL_DOMINANT"
  else "NEUTRAL"

/-- Embeds `OrderFlowEngine::onTick(tick, isBuy)`: bump the tick count and the
running average volume, feed every subcomponent, and — when `getOFI`
yields a result — update the toxicity and assemble the signal. -/
def engineOnTick (s : EngineState) (tick : MarketTick) (isBuy : Bool) :
    EngineState × Option OrderFlowSignal :=
  let tickCount := s.tickCount + 1
  let avgVolume := (((tickCount : ℚ) - 1) * s.avgVolume + tick.volume) / (tickCount : ℚ)
  let ofi := ofiOnTrade s.ofi tick.price tick.volume isBuy tick.timestamp
  let (bidVolumes, askVolumes) :=
    pressureOnTrade s.pressureWindow s.bidVolumes s.askVolumes isBuy tick.volume
  let aggressionScores :=
    aggressionOnTrade s.aggressionWindow s.aggressionScores tick.volume avgVolume isBuy
  let delta := if isBuy then tick.volume else -tick.volume
  let cumulativeDelta := s.cumulativeDelta + delta
  let recentDeltas := pushCap 50 s.recentDeltas delta
  let s' := { s with
      ofi := ofi
      bidVolumes := bidVolumes
      askVolumes := askVolumes
      aggressionScores := aggressionScores
      cumulativeDelta := cumulativeDelta
      recentDeltas := recentDeltas
      avgVolume := avgVolume
      tickCount := tickCount }
  match getOFI ofi with
  | none => (s', none)
  | some ofiResult =>
      let pressureResult := getPressure bidVolumes askVolumes
      let aggrScore := getAggression aggressionScores
      let toxicity :=
        toxicityUpdate ofiResult.imbalance pressureResult.imbalanceRatio aggrScore
      let s'' := { s' with toxicity := toxicity }
      (s'',
        some
          { imbalance := ofiResult.imbalance
            bidPressure := ofiResult.bidPressure
            askPressure := ofiResult.askPressure
            aggression := aggrScore
            volumeDelta := cumulativeDelta
            toxicity := toxicity
            isToxicFlow := decide (s.toxicityThreshold < toxicity)
            flowDirection :=
              determineFlowDirection ofiResult.imbalance pressureResult.imbalanceRatio
            timestamp := tick.timestamp })

/-- Embeds `OrderFlowEngine::reset`: resets the volume delta (cumulative value
and recent deque), the running average volume and the tick count — and
nothing else: the OFI, pressure, aggression and toxicity subcomponents
keep their state. -/
def engineReset (s : EngineState) : EngineState :=
  { s with
      cumulativeDelta := 0
      recentDeltas := []
      avgVolume := 0
      tickCount := 0 }

/-- Run the engine over a list of `(tick, isBuy)` pairs, collecting the
per-tick outputs in order. -/
def engineRun (s : EngineState) : List (MarketTick × Bool) →
    EngineState × List (Option OrderFlowSignal)
  | [] => (s, [])
  | (t, b) :: ts =>
      let (s', out) := engineOnTick s t b
      let (sFinal, rest) := engineRun s' ts
      (sFinal, out :: rest)

/-! ## Hurst estimator (`regime::hurstExponent`, src/unnamed/part_002)

The estimator applies `std::log` and `std::sqrt`; both are abstracted as
parameters `rlog rsqrt : ℚ → ℚ` and every theorem quantifies over them. -/

/-- The log-return pass of `regime::hurstExponent`: for each adjacent
pair of positive prices, `log(p_i / p_{i-1})`. -/
def hurstLogReturns (rlog : ℚ → ℚ) (prices : List ℚ) : List ℚ :=
  (prices.zip prices.tail).filterMap fun pr =>
    if 0 < pr.1 ∧ 0 < pr.2 then some (rlog (pr.2 / pr.1)) else none

/-- One R/S segment of the analysis: mean, cumulative deviations, range
`R = max − min`, scale `S = sqrt(variance/lag)`; contributes `R/S` to the
running sum only, as the source does, when `S > 1e-10`. -/
def segmentRS (rsqrt : ℚ → ℚ) (segment : List ℚ) (lag : ℕ) : ℚ :=
  let m := segment.sum / (lag : ℚ)
  let cumDev := (segment.scanl (fun acc x => acc + x - m) 0).tail
  let r := cumDev.foldl max (cumDev.headD 0) - cumDev.foldl min (cumDev.headD 0)
  let variance := (segment.map fun x => (x - m) ^ 2).sum
  let sDev := rsqrt (variance / (lag : ℚ))
  if 1 / 10000000000 < sDev then r / sDev else 0

/-- The per-lag body of the R/S loop: split the returns into
`numSegments = ⌊n / lag⌋` disjoint segments, average their `R/S`, and —
when there is at least one segment — record `(log lag, log avgRS)`. -/
def lagPoint (rlog rsqrt : ℚ → ℚ) (logReturns : List ℚ) (lag : ℕ) :
    Option (ℚ × ℚ) :=
  let numSegments := logReturns.length / lag
  let avgRS :=
    ((List.range numSegments).map fun seg =>
        segmentRS rsqrt ((logReturns.drop (seg * lag)).take lag) lag).sum
  if 0 < numSegments then
    some (rlog (lag : ℚ), rlog (avgRS / (numSegments : ℚ)))
  else none

/-- The `(log lag, log avg R/S)` points the R/S loop records: lags from 2
while `lag ≤ maxLag` and `lag ≤ n/2` (both bounds are monotone in the
lag, so the loop's exit set is this filter). -/
def hurstPoints (rlog rsqrt : ℚ → ℚ) (logReturns : List ℚ) (maxLag : ℕ) :
    List (ℚ × ℚ) :=
  ((List.range (maxLag + 1)).filter fun lag =>
      2 ≤ lag ∧ lag ≤ logReturns.length / 2).filterMap
    (lagPoint rlog rsqrt logReturns)

/-- The closing least-squares regression of `regime::hurstExponent`:
the slope of `log R/S` against `log lag` over the recorded points. -/
def hurstSlope (points : List (ℚ × ℚ)) : ℚ :=
  ((points.length : ℚ) * (points.map fun p => p.1 * p.2).sum -
      (points.map Prod.fst).sum * (points.map Prod.snd).sum) /
    ((points.length : ℚ) * (points.map fun p => p.1 ^ 2).sum -
      (points.map Prod.fst).sum * (points.map Prod.fst).sum)

/-- Embeds `regime::hurstExponent(prices, maxLag)`: 0.5 on the two
insufficient-data early returns and with fewer than 3 recorded regression
points; otherwise the least-squares slope of `log R/S` against `log lag`,
clamped to `[0, 1]`. -/
def hurstExponent (rlog rsqrt : ℚ → ℚ) (prices : List ℚ) (maxLag : ℕ) : ℚ :=
  if prices.length < maxLag * 2 then 1 / 2
  else if (hurstLogReturns rlog prices).length < maxLag then 1 / 2
  else if
      (hurstPoints rlog rsqrt (hurstLogReturns rlog prices) maxLag).length < 3 then
    1 / 2
  else
    min
      (max (hurstSlope (hurstPoints rlog rsqrt (hurstLogReturns rlog prices) maxLag))
        0)
      1

/-! ## Roll spread (`microstructure::computeRollSpread`,
src/src/alpha/microstructure.cpp)

The source returns `2·sqrt(−c)` when its serial moment `c` is negative
and `0` otherwise. The square root of a rational is irrational in
general, so the embedding carries the *square* of the returned spread:
the source's return value is `sqrt` of `computeRollSpreadSq`, and since
squaring is a strictly monotone bijection on the non-negative reals this
determines the returned value exactly (a spread of `2` is a
`computeRollSpreadSq` of `4`). -/

/-- The serial-moment loop of `computeRollSpread`: `sumProduct` collects
`ΔP_i · ΔP_{i-1}` while `n` counts the terms; the result is
`sumProduct / n` guarded by `n > 0`. This is the *uncentered* mean of the
lagged products — no means are subtracted. -/
def rollSerialMoment (priceChanges : List ℚ) : ℚ :=
  let (sumProduct, n) :=
    (priceChanges.zip priceChanges.tail).foldl
      (fun acc pr => (acc.1 + pr.2 * pr.1, acc.2 + 1)) ((0 : ℚ), (0 : ℕ))
  if 0 < n then sumProduct / (n : ℚ) else 0

/-- The square of the value returned by `computeRollSpread`: `0` with
fewer than 2 price changes, else `(2·sqrt(−c))² = 4·(−c)` when the serial
moment `c` is negative and `0` otherwise. -/
def computeRollSpreadSq (priceChanges : List ℚ) : ℚ :=
  if priceChanges.length < 2 then 0
  else if rollSerialMoment priceChanges < 0 then
    4 * -rollSerialMoment priceChanges
  else 0

/-- The uncentered mean of lagged products in closed form:
`(Σ_{i≥1} ΔP_i·ΔP_{i-1}) / (len − 1)`. -/
def lagProductMean (priceChanges : List ℚ) : ℚ :=
  ((priceChanges.zip priceChanges.tail).map fun pr => pr.2 * pr.1).sum /
    ((priceChanges.length - 1 : ℕ) : ℚ)

/-- The lag-1 sample covariance the specification's formula names, taken
over the paired samples `(x_i, y_i) = (ΔP_i, ΔP_{i-1})` for `i ≥ 1` with
population normalization: `mean(x·y) − mean(x)·mean(y)`. This definition
follows the spec's words, for comparison against the source's
`rollSerialMoment`. -/
def specLagCovariance (priceChanges : List ℚ) : ℚ :=
  let pairs := priceChanges.zip priceChanges.tail
  let n := (pairs.length : ℚ)
  let xs := pairs.map Prod.snd
  let ys := pairs.map Prod.fst
  (pairs.map fun pr => pr.2 * pr.1).sum / n - (xs.sum / n) * (ys.sum / n)

/-! ## PnL tracker (`PnLTracker`, src/src/backtest/pnl.cpp) -/

/-- Embeds `Position` from `include/backtest/pnl.h` (the fields the tracker
reads and writes). -/
structure Position where
  symbol : String
  quantity : ℚ
  avgEntryPrice : ℚ
  currentPrice : ℚ
  unrealizedPnL : ℚ
  realizedPnL : ℚ
  totalCost : ℚ
deriving DecidableEq, Repr

/-- A `PnLTracker::Transaction`. The source stamps each transaction with
the wall-clock time of the call; no checked claim reads the stamp, so the
embedding records `0`. -/
structure Transaction where
  symbol : String
  timestamp : Int
  quantity : ℚ
  price : ℚ
  type : String
deriving DecidableEq, Repr

/-- Lookup in an association-list map, as `std::map::find`. -/
def mapFind (m : List (String × Position)) (k : String) : Option Position :=
  (m.find? fun kv => kv.1 = k).map Prod.snd

/-- Store a value under a key: overwrite the entry when the key is
present, insert when absent (`positions_[symbol] = pos` / mutation
through the iterator). The tracker's call sites keep keys unique, so
replacing the first occurrence is the map assignment; the source map is
key-sorted, but no claim reads the iteration order. -/
def mapStore : List (String × Position) → String → Position →
    List (String × Position)
  | [], k, v => [(k, v)]
  | kv :: rest, k, v =>
      if kv.1 = k then (k, v) :: rest else kv :: mapStore rest k v

/-- Embeds `std::map::erase(key)`. -/
def mapErase (m : List (String × Position)) (k : String) :
    List (String × Position) :=
  m.filter fun kv => ¬kv.1 = k

/-- Lookup in the realized-PnL map; `operator[]` default-constructs `0.0`
for an absent key. -/
def rpnlGet (m : List (String × ℚ)) (k : String) : ℚ :=
  ((m.find? fun kv => kv.1 = k).map Prod.snd).getD 0

/-- Embeds `realizedPnL_[symbol] += pnl` (`operator[]` default-constructs `0.0`
for an absent key, so an absent key stores `0 + pnl`). -/
def rpnlAdd : List (String × ℚ) → String → ℚ → List (String × ℚ)
  | [], k, pnl => [(k, 0 + pnl)]
  | kv :: rest, k, pnl =>
      if kv.1 = k then (k, kv.2 + pnl) :: rest else kv :: rpnlAdd rest k pnl

/-- The mutable state of `PnLTracker`. The three `CostMethod` variants
perform the identical average-cost update in `updatePositionCost`, so the
method is not part of the state. -/
structure PnLState where
  positions : List (String × Position)
  realizedPnL : List (String × ℚ)
  transactions : List Transaction
  cash : ℚ
  initialCash : ℚ
deriving DecidableEq, Repr

/-- Embeds `PnLTracker(initialCash, method)`. -/
def pnlInit (initialCash : ℚ) : PnLState :=
  { positions := [], realizedPnL := [], transactions := []
    cash := initialCash, initialCash := initialCash }

/-- Embeds `PnLTracker::updatePositionCost` (every `CostMethod` branch):
volume-weighted average entry price over the combined quantity. -/
def updatePositionCost (pos : Position) (quantity price : ℚ) : Position :=
  let totalQuantity := pos.quantity + quantity
  let avg := (pos.avgEntryPrice * |pos.quantity| + price * |quantity|) / |totalQuantity|
  { pos with
      avgEntryPrice := avg
      quantity := totalQuantity
      totalCost := |totalQuantity| * avg }

/-- Embeds `PnLTracker::addPosition(symbol, quantity, price)`: create a fresh
position, add to the same side, or close/flip — erasing the entity when
the combined quantity falls below `1e-8` in absolute value. Cash moves by
`−quantity·price` and a BUY/SELL transaction is recorded in every case. -/
def addPosition (s : PnLState) (symbol : String) (quantity price : ℚ) : PnLState :=
  let s' :=
    match mapFind s.positions symbol with
    | none =>
        let pos : Position :=
          { symbol := symbol, quantity := quantity, avgEntryPrice := price
            currentPrice := price, unrealizedPnL := 0, realizedPnL := 0
            totalCost := |quantity| * price }
        { s with positions := mapStore s.positions symbol pos }
    | some pos =>
        if (0 < pos.quantity ∧ 0 < quantity) ∨ (pos.quantity < 0 ∧ quantity < 0) then
          let pos' := updatePositionCost pos quantity price
          { s with positions := mapStore s.positions symbol pos' }
        else
          let closeQuantity := min |quantity| |pos.quantity|
          let pnl := (price - pos.avgEntryPrice) * closeQuantity *
            (if 0 < pos.quantity then 1 else -1)
          let pos := { pos with realizedPnL := pos.realizedPnL + pnl }
          let newQuantity := pos.quantity + quantity
          let positions :=
            if |newQuantity| < 1 / 100000000 then mapErase s.positions symbol
            else mapStore s.positions symbol
              { pos with
                  quantity := newQuantity
                  avgEntryPrice := price
                  totalCost := |newQuantity| * price }
          { s with
              positions := positions
              realizedPnL := rpnlAdd s.realizedPnL symbol pnl }
  { s' with
      cash := s'.cash - quantity * price
      transactions := s'.transactions ++
        [{ symbol := symbol, timestamp := 0, quantity := quantity, price := price
           type := if 0 < quantity then "BUY" else "SELL" }] }

/-- Embeds `PnLTracker::closePosition(symbol, price)`: realize
`(price − avgEntry)·quantity`, credit `quantity·price` to cash, record a
CLOSE transaction, and erase the position. A miss is a no-op. -/
def closePosition (s : PnLState) (symbol : String) (price : ℚ) : PnLState :=
  match mapFind s.positions symbol with
  | none => s
  | some pos =>
      let pnl := (price - pos.avgEntryPrice) * pos.quantity
      { s with
          positions := mapErase s.positions symbol
          realizedPnL := rpnlAdd s.realizedPnL symbol pnl
          cash := s.cash + pos.quantity * price
          transactions := s.transactions ++
            [{ symbol := symbol, timestamp := 0, quantity := -pos.quantity
               price := price, type := "CLOSE" }] }

/-- Embeds `PnLTracker::closePartialPosition(symbol, quantity, price)` (the
source spells the member with "Partial"): acts only when the signs
oppose; realizes PnL on `min(|quantity|, |position|)`, adds the full
`quantity` to the position, erases it below the `1e-8` threshold, and
moves cash by `±closeQty·price`. -/
def closePartPosition (s : PnLState) (symbol : String) (quantity price : ℚ) :
    PnLState :=
  match mapFind s.positions symbol with
  | none => s
  | some pos =>
      if (0 < pos.quantity ∧ quantity < 0) ∨ (pos.quantity < 0 ∧ 0 < quantity) then
        let closeQty := min |quantity| |pos.quantity|
        let pnl := (price - pos.avgEntryPrice) * closeQty *
          (if 0 < pos.quantity then 1 else -1)
        let newQuantity := pos.quantity + quantity
        let positions :=
          if |newQuantity| < 1 / 100000000 then mapErase s.positions symbol
          else mapStore s.positions symbol
            { pos with
                realizedPnL := pos.realizedPnL + pnl
                quantity := newQuantity }
        { s with
            positions := positions
            realizedPnL := rpnlAdd s.realizedPnL symbol pnl
            cash := s.cash + closeQty * price * (if quantity < 0 then -1 else 1)
            transactions := s.transactions ++
              [{ symbol := symbol, timestamp := 0, quantity := quantity
                 price := price, type := "PARTIAL_CLOSE" }] }
      else s

/-- Embeds `PnLTracker::updatePrice(symbol, price)`: refresh the current price
and the unrealized PnL of the symbol's position, when there is one. -/
def updatePrice (s : PnLState) (symbol : String) (price : ℚ) : PnLState :=
  match mapFind s.positions symbol with
  | none => s
  | some pos =>
      let pos' := { pos with
        currentPrice := price
        unrealizedPnL := (price - pos.avgEntryPrice) * pos.quantity }
      { s with positions := mapStore s.positions symbol pos' }

/-- Embeds `PnLTracker::reset`. -/
def pnlReset (s : PnLState) : PnLState :=
  { s with positions := [], realizedPnL := [], transactions := []
           cash := s.initialCash }

/-- One `PnLTracker` call, for quantifying over operation sequences. -/
inductive PnLOp where
  | add (symbol : String) (quantity price : ℚ)
  | close (symbol : String) (price : ℚ)
  | closePart (symbol : String) (quantity price : ℚ)
  | update (symbol : String) (price : ℚ)
deriving DecidableEq, Repr

/-- Apply one `PnLTracker` call. -/
def applyPnLOp (s : PnLState) : PnLOp → PnLState
  | PnLOp.add symbol quantity price => addPosition s symbol quantity price
  | PnLOp.close symbol price => closePosition s symbol price
  | PnLOp.closePart symbol quantity price => closePartPosition s symbol quantity price
  | PnLOp.update symbol price => updatePrice s symbol price

/-! ## Performance metrics (src/src/backtest/sharpe.cpp) -/

/-- The static `mean` helper: zero on empty input. -/
def meanQ (data : List ℚ) : ℚ :=
  if data.isEmpty then 0 else data.sum / (data.length : ℚ)

/-- The static `stddev` helper: zero below two samples, else
`sqrt(Σ(v−m)² / (n−1))`; the square root is the abstracted `rsqrt`. -/
def stddevQ (rsqrt : ℚ → ℚ) (data : List ℚ) : ℚ :=
  if data.length < 2 then 0
  else
    let m := meanQ data
    rsqrt ((data.map fun v => (v - m) ^ 2).sum / ((data.length - 1 : ℕ) : ℚ))

/-- Embeds `computeSharpeRatio(returns, riskFreeRate, periodsPerYear)`: zero
below two samples or when the standard deviation is below `1e-10`, else
the annualized excess-return ratio. -/
def computeSharpeRatio (rsqrt : ℚ → ℚ) (returns : List ℚ)
    (riskFreeRate periodsPerYear : ℚ) : ℚ :=
  if returns.length < 2 then 0
  else
    let meanReturn := meanQ returns
    let sd := stddevQ rsqrt returns
    if sd < 1 / 10000000000 then 0
    else ((meanReturn - riskFreeRate / periodsPerYear) / sd) * rsqrt periodsPerYear

/-- Embeds `computeMaxDrawdown(equityCurve)`: the maximal `runningPeak − equity`
over the curve, zero on an empty curve. -/
def computeMaxDrawdown (equityCurve : List ℚ) : ℚ :=
  match equityCurve with
  | [] => 0
  | e :: _ =>
      (equityCurve.foldl
        (fun acc equity =>
          let peak := max acc.1 equity
          (peak, max acc.2 (peak - equity)))
        (e, 0)).2

/-- Embeds `computeProfitFactor(returns)`: zero on empty input; otherwise
`Σ_{r>0} r` over `Σ_{r≤0} |r|`, zero when the loss sum is not positive. -/
def computeProfitFactor (returns : List ℚ) : ℚ :=
  if returns.isEmpty then 0
  else if 0 < (returns.map fun r => if 0 < r then 0 else |r|).sum then
    (returns.map fun r => if 0 < r then r else 0).sum /
      (returns.map fun r => if 0 < r then 0 else |r|).sum
  else 0

/-! ## Backtester (src/src/backtest/backtester.cpp; declarations in
src/unnamed/part_004) -/

/-- Embeds `BacktestConfig` (the fields `run` reads; `latencyMs` is read
nowhere). -/
structure BacktestConfig where
  initialCapital : ℚ
  commissionRate : ℚ
  slippageBps : ℚ
  maxPositionSize : ℚ
  enableShortSelling : Bool
  enableMarginTrading : Bool
  marginRequirement : ℚ
deriving DecidableEq, Repr

/-- Embeds `Trade` from the backtester declarations. -/
structure Trade where
  symbol : String
  timestamp : Int
  entryPrice : ℚ
  exitPrice : ℚ
  quantity : ℚ
  isLong : Bool
  pnl : ℚ
  commission : ℚ
  slippage : ℚ
  entryReason : String
  exitReason : String
deriving DecidableEq, Repr

/-- Embeds `BacktestResult` from the backtester declarations. -/
structure BacktestResult where
  trades : List Trade
  totalPnL : ℚ
  totalReturn : ℚ
  sharpeRatio : ℚ
  maxDrawdown : ℚ
  winRate : ℚ
  numTrades : ℕ
  numWinningTrades : ℕ
  numLosingTrades : ℕ
  avgWin : ℚ
  avgLoss : ℚ
  profitFactor : ℚ
  expectancy : ℚ
  equityCurve : List ℚ
  timestamps : List Int
deriving DecidableEq, Repr

/-- The mutable members of `Backtester` during `run`, together with the
locals `trades`, `equityCurve` and `timestamps` that the loop grows. -/
structure RunState where
  currentPosition : ℚ
  avgEntryPrice : ℚ
  currentCash : ℚ
  pnlTracker : PnLState
  trades : List Trade
  equityCurve : List ℚ
  timestamps : List Int
deriving DecidableEq, Repr

/-- Embeds `Backtester::applySlippage(price, quantity, isBuy)`:
`price · (1 ± slippageBps/10⁴)`. -/
def applySlippage (cfg : BacktestConfig) (price : ℚ) (isBuy : Bool) : ℚ :=
  price * (1 + (if isBuy then 1 else -1) * (cfg.slippageBps / 10000))

/-- Embeds `Backtester::calculateCommission(notional)`. -/
def calculateCommission (cfg : BacktestConfig) (notional : ℚ) : ℚ :=
  notional * cfg.commissionRate

/-- Embeds `Backtester::canEnterPosition(price, quantity)`. -/
def canEnterPosition (cfg : BacktestConfig) (currentCash price quantity : ℚ) :
    Bool :=
  let notional := price * |quantity|
  let requiredCapital :=
    notional * (if cfg.enableMarginTrading then cfg.marginRequirement else 1)
  decide (requiredCapital ≤ currentCash * cfg.maxPositionSize)

/-- Embeds `Backtester::enterPosition(tick, quantity, isLong, reason)`. -/
def enterPosition (cfg : BacktestConfig) (s : RunState) (tick : MarketTick)
    (quantity : ℚ) (isLong : Bool) : RunState :=
  let executionPrice := applySlippage cfg tick.price isLong
  let notional := executionPrice * |quantity|
  let commission := calculateCommission cfg notional
  { s with
      currentPosition := quantity
      avgEntryPrice := executionPrice
      currentCash := s.currentCash - (notional + commission)
      pnlTracker := addPosition s.pnlTracker tick.symbol quantity executionPrice }

/-- Embeds `Backtester::exitPosition(tick, reason)`: a no-op on a flat book;
otherwise realize the proceeds at the slipped price, close the tracker's
position, and zero `currentPosition_` and `avgEntryPrice_`. (The local
`pnl` the source computes here is only printed.) -/
def exitPosition (cfg : BacktestConfig) (s : RunState) (tick : MarketTick) :
    RunState :=
  if s.currentPosition = 0 then s
  else
    let isLong := 0 < s.currentPosition
    let executionPrice := applySlippage cfg tick.price (!isLong)
    let notional := executionPrice * |s.currentPosition|
    let commission := calculateCommission cfg notional
    { s with
        currentPosition := 0
        avgEntryPrice := 0
        currentCash := s.currentCash + (notional - commission)
        pnlTracker := closePosition s.pnlTracker tick.symbol executionPrice }

/-- The body of the tick loop in `Backtester::run`. On a `+1` signal with
a non-positive position, size by `cash·maxPositionSize/price` and enter
long when allowed. On a `−1` signal with a non-negative position, exit
any long and then record the `Trade` — reading `avgEntryPrice_` and
`currentPosition_` *after* `exitPosition` zeroed them, exactly as the
source does — and enter short when enabled. Finally push the equity point
and refresh the tracker price. -/
def runStep (cfg : BacktestConfig) (signalFunc : MarketTick → Int)
    (s : RunState) (tick : MarketTick) : RunState :=
  let signal := signalFunc tick
  let s :=
    if signal = 1 ∧ s.currentPosition ≤ 0 then
      let maxQuantity := s.currentCash * cfg.maxPositionSize / tick.price
      if canEnterPosition cfg s.currentCash tick.price maxQuantity then
        enterPosition cfg s tick maxQuantity true
      else s
    else if signal = -1 ∧ 0 ≤ s.currentPosition then
      let s :=
        if 0 < s.currentPosition then
          let s := exitPosition cfg s tick
          let trade : Trade :=
            { symbol := tick.symbol
              timestamp := tick.timestamp
              entryPrice := s.avgEntryPrice
              exitPrice := tick.price
              quantity := s.currentPosition
              isLong := true
              pnl := (tick.price - s.avgEntryPrice) * s.currentPosition
              commission := calculateCommission cfg (tick.price * s.currentPosition)
              slippage := applySlippage cfg tick.price false - tick.price
              entryReason := "SIGNAL_BUY"
              exitReason := "SIGNAL_SELL" }
          { s with trades := s.trades ++ [trade] }
        else s
      if cfg.enableShortSelling then
        let maxQuantity := s.currentCash * cfg.maxPositionSize / tick.price
        if canEnterPosition cfg s.currentCash tick.price maxQuantity then
          enterPosition cfg s tick (-maxQuantity) false
        else s
      else s
    else s
  { s with
      equityCurve := s.equityCurve ++ [s.currentCash + s.currentPosition * tick.price]
      timestamps := s.timestamps ++ [tick.timestamp]
      pnlTracker := updatePrice s.pnlTracker tick.symbol tick.price }

/-- Embeds `Backtester::computeResults(trades)`. The `result.equityCurve` passed
to `computeMaxDrawdown` is the default-constructed empty vector — the
curve grown during the loop is a discarded local — and the empty curve
and timestamps are what the result carries. `winRate` divides the win
count by `numTrades`, `profitFactor` is `avgWin / avgLoss` guarded on a
positive `avgLoss`, and the Sharpe ratio is computed on per-trade returns
`pnl / initialCapital`. -/
def computeResults (cfg : BacktestConfig) (rsqrt : ℚ → ℚ) (trades : List Trade) :
    BacktestResult :=
  if trades.isEmpty then
    { trades := trades, totalPnL := 0, totalReturn := 0, sharpeRatio := 0
      maxDrawdown := 0, winRate := 0, numTrades := trades.length
      numWinningTrades := 0, numLosingTrades := 0, avgWin := 0, avgLoss := 0
      profitFactor := 0, expectancy := 0, equityCurve := [], timestamps := [] }
  else
    let acc := trades.foldl
      (fun acc trade =>
        let (totalPnL, totalWin, totalLoss, numWinning, numLosing) := acc
        let totalPnL := totalPnL + trade.pnl
        if 0 < trade.pnl then
          (totalPnL, totalWin + trade.pnl, totalLoss, numWinning + 1, numLosing)
        else if trade.pnl < 0 then
          (totalPnL, totalWin, totalLoss + |trade.pnl|, numWinning, numLosing + 1)
        else (totalPnL, totalWin, totalLoss, numWinning, numLosing))
      ((0 : ℚ), (0 : ℚ), (0 : ℚ), (0 : ℕ), (0 : ℕ))
    let (totalPnL, totalWin, totalLoss, numWinning, numLosing) := acc
    let numTrades := trades.length
    let avgWin := if 0 < numWinning then totalWin / (numWinning : ℚ) else 0
    let avgLoss := if 0 < numLosing then totalLoss / (numLosing : ℚ) else 0
    let returns := trades.map fun trade => trade.pnl / cfg.initialCapital
    let emptyCurve : List ℚ := []
    { trades := trades
      totalPnL := totalPnL
      totalReturn := totalPnL / cfg.initialCapital * 100
      sharpeRatio := computeSharpeRatio rsqrt returns 0 252
      maxDrawdown := computeMaxDrawdown emptyCurve
      winRate := (numWinning : ℚ) / (numTrades : ℚ)
      numTrades := numTrades
      numWinningTrades := numWinning
      numLosingTrades := numLosing
      avgWin := avgWin
      avgLoss := avgLoss
      profitFactor := if 0 < avgLoss then avgWin / avgLoss else 0
      expectancy := totalPnL / (numTrades : ℚ)
      equityCurve := emptyCurve
      timestamps := [] }

/-- Embeds `Backtester::run(historicalData, signalFunc)`: reset the state, fold
the tick loop, close any open position on the last tick (recording no
trade), and compute the results. -/
def backtesterRun (cfg : BacktestConfig) (rsqrt : ℚ → ℚ)
    (historicalData : List MarketTick) (signalFunc : MarketTick → Int) :
    BacktestResult :=
  let s0 : RunState :=
    { currentPosition := 0, avgEntryPrice := 0, currentCash := cfg.initialCapital
      pnlTracker := pnlReset (pnlInit cfg.initialCapital)
      trades := [], equityCurve := [], timestamps := [] }
  let s := historicalData.foldl (runStep cfg signalFunc) s0
  let s :=
    match historicalData.getLast? with
    | some lastTick => if ¬s.currentPosition = 0 then exitPosition cfg s lastTick else s
    | none => s
  computeResults cfg rsqrt s.trades

/-! ## Helper lemmas -/

/-- A bounded-deque push keeps only old elements and the new one. -/
theorem mem_pushCap {α : Type} {cap : ℕ} {l : List α} {x y : α}
    (hy : y ∈ pushCap cap l x) : y ∈ l ∨ y = x := by
  unfold pushCap at hy
  split at hy
  · have := List.mem_of_mem_tail hy
    simpa using this
  · simpa using hy

/-- A bounded-deque push grows the length by at most one. -/
theorem pushCap_length_le {α : Type} (cap : ℕ) (l : List α) (x : α) :
    (pushCap cap l x).length ≤ l.length + 1 := by
  unfold pushCap
  split
  · simp [List.length_tail]
  · simp

/-- Erasing a key removes it from the association map. -/
theorem mapFind_mapErase (m : List (String × Position)) (k : String) :
    mapFind (mapErase m k) k = none := by
  induction m with
  | nil => rfl
  | cons kv rest ih =>
      by_cases hk : kv.1 = k <;> simp [mapErase, mapFind, hk, ih]

/-- Storing a key makes it findable with the stored value. -/
theorem mapFind_mapStore (m : List (String × Position)) (k : String) (v : Position) :
    mapFind (mapStore m k v) k = some v := by
  induction m with
  | nil => simp [mapStore, mapFind]
  | cons kv rest ih =>
      by_cases hk : kv.1 = k
      · simp [mapStore, mapFind, hk]
      · simpa [mapStore, mapFind, hk] using ih

/-- Summing `f` with a counter along a fold computes the mapped sum and
the length. -/
theorem foldl_sum_count {α : Type} (f : α → ℚ) (l : List α) (a : ℚ) (n : ℕ) :
    l.foldl (fun acc x => (acc.1 + f x, acc.2 + 1)) (a, n) =
      (a + (l.map f).sum, n + l.length) := by
  induction l generalizing a n with
  | nil => simp
  | cons x xs ih => simp [ih, add_assoc, add_comm, add_left_comm]

/-! ## Claim theorems -/

set_option maxHeartbeats 1600000
set_option maxRecDepth 4000

/-- C2 (counterexample): the candle handed to `onCandleClosed` *does*
include the triggering tick. Two runs with `intervalSeconds = 1` that
differ only in the triggering tick — `(20, 2)` versus `(30, 5)` at the
same instant — emit different candles, and the emitted candle's close,
high and volume carry the triggering tick's price and volume
(`close = 20`, `high = 20`, `volume = 1 + 2 = 3`), where the claim
predicts the pre-trigger candle `⟨10, 10, 10, 10, 1⟩` in both runs. -/
theorem candle_emit_includes_trigger_cex :
    aggEmitted 1 [(10, 1, 0), (20, 2, 1000)] =
      [{ openPrice := 10, high := 20, low := 10, close := 20, volume := 3
         startTime := 0, endTime := 1000 }] ∧
    aggEmitted 1 [(10, 1, 0), (30, 5, 1000)] =
      [{ openPrice := 10, high := 30, low := 10, close := 30, volume := 6
         startTime := 0, endTime := 1000 }] ∧
    aggEmitted 1 [(10, 1, 0), (20, 2, 1000)] ≠
      aggEmitted 1 [(10, 1, 0), (30, 5, 1000)] := by
  refine ⟨?_, ?_, ?_⟩ <;>
    norm_num [aggEmitted, aggRun, aggOnTick, aggInit, elapsedSeconds]

/-- C2 (amended): on a tick whose elapsed seconds from the candle start
reach `intervalSeconds`, the emitted candle is the running candle
*updated with the triggering tick* (high/low against its price, close at
its price, volume increased by its volume, end at its instant), and the
replacement candle starts at the triggering tick with
open = high = low = close = price and volume `0`. -/
theorem candle_close_emits_updated_and_resets (s : AggState)
    (price volume : ℚ) (timestamp : Int)
    (hc : s.hasCandle = true)
    (he : s.intervalSeconds ≤ elapsedSeconds timestamp s.candleStart) :
    aggOnTick s price volume timestamp =
      ({ s with
          candleStart := timestamp
          currentCandle :=
            ⟨price, price, price, price, 0, timestamp, timestamp⟩ },
        some
          { openPrice := s.currentCandle.openPrice
            high := max s.currentCandle.high price
            low := min s.currentCandle.low price
            close := price
            volume := s.currentCandle.volume + volume
            startTime := s.currentCandle.startTime
            endTime := timestamp }) := by
  simp [aggOnTick, hc, he]

/-- C2 (witness for the amended theorem): the closing tick of the
concrete two-tick run, at a state holding a one-tick candle. -/
theorem candle_close_emits_updated_and_resets_witness :
    aggOnTick
        { intervalSeconds := 1, hasCandle := true, candleStart := 0
          currentCandle := ⟨10, 10, 10, 10, 1, 0, 0⟩ } 20 2 1000 =
      ({ intervalSeconds := 1, hasCandle := true, candleStart := 1000
         currentCandle := ⟨20, 20, 20, 20, 0, 1000, 1000⟩ },
        some ⟨10, max 10 20, min 10 20, 20, 1 + 2, 0, 1000⟩) :=
  candle_close_emits_updated_and_resets
    { intervalSeconds := 1, hasCandle := true, candleStart := 0
      currentCandle := ⟨10, 10, 10, 10, 1, 0, 0⟩ } 20 2 1000
    rfl (by decide)

/-- C1: on the S6 scenario — commission `0.001`, slippage `2` bps,
initial capital `10000`, max position size `0.5`, a `+1` signal at price
`100` then a `−1` signal at price `110` — the entry executes at
`100.02 = applySlippage 100 true` and the exit at
`109.978 = applySlippage 110 false`, but the recorded `Trade` is built
from the members `exitPosition` has already zeroed: entry price `0`,
exit price `110` (the raw tick price), quantity `0`, PnL `0`; hence
`winRate = 0`, not `1`. -/
theorem backtester_s6_records_zeroed_trade :
    applySlippage ⟨10000, 1/1000, 2, 1/2, false, false, 1/2⟩ 100 true = 5001/50 ∧
    applySlippage ⟨10000, 1/1000, 2, 1/2, false, false, 1/2⟩ 110 false = 54989/500 ∧
    (backtesterRun ⟨10000, 1/1000, 2, 1/2, false, false, 1/2⟩ id
        [⟨"BTC", 100, 1, 0⟩, ⟨"BTC", 110, 1, 1⟩]
        (fun t => if t.timestamp = 0 then 1 else -1)).trades =
      [{ symbol := "BTC", timestamp := 1, entryPrice := 0, exitPrice := 110
         quantity := 0, isLong := true, pnl := 0, commission := 0
         slippage := -(11/500), entryReason := "SIGNAL_BUY"
         exitReason := "SIGNAL_SELL" }] ∧
    (backtesterRun ⟨10000, 1/1000, 2, 1/2, false, false, 1/2⟩ id
        [⟨"BTC", 100, 1, 0⟩, ⟨"BTC", 110, 1, 1⟩]
        (fun t => if t.timestamp = 0 then 1 else -1)).numTrades = 1 ∧
    (backtesterRun ⟨10000, 1/1000, 2, 1/2, false, false, 1/2⟩ id
        [⟨"BTC", 100, 1, 0⟩, ⟨"BTC", 110, 1, 1⟩]
        (fun t => if t.timestamp = 0 then 1 else -1)).winRate = 0 := by
  refine ⟨?_, ?_, ?_, ?_, ?_⟩ <;>
    norm_num [backtesterRun, runStep, computeResults, enterPosition, exitPosition,
      applySlippage, calculateCommission, canEnterPosition, addPosition,
      closePosition, updatePrice, pnlInit, pnlReset, mapFind, mapStore, mapErase,
      rpnlAdd, computeSharpeRatio, computeMaxDrawdown, meanQ, stddevQ,
      updatePositionCost]

/-- C3: replay after `reset()` is not identical. `OrderFlowEngine::reset`
clears only the volume delta, the average volume and the tick count; the
OFI, pressure, aggression and toxicity subcomponents keep their windows.
Feeding a buy of volume `1` and a sell of volume `3` (windows `100`,
threshold `0.7`), resetting, and replaying the same two ticks yields a
different signal stream: the first signal's imbalance is `1` on the first
run but `−1/5` on the replay, whose OFI window still holds the first
run's trades. -/
theorem engine_reset_replay_differs :
    (engineRun (engineInit 100 100 100 (7/10))
        [(⟨"X", 1, 1, 0⟩, true), (⟨"X", 1, 3, 1⟩, false)]).2.map
      (Option.map OrderFlowSignal.imbalance) = [some 1, some (-(1/2))] ∧
    (engineRun
        (engineReset
          (engineRun (engineInit 100 100 100 (7/10))
            [(⟨"X", 1, 1, 0⟩, true), (⟨"X", 1, 3, 1⟩, false)]).1)
        [(⟨"X", 1, 1, 0⟩, true), (⟨"X", 1, 3, 1⟩, false)]).2.map
      (Option.map OrderFlowSignal.imbalance) = [some (-(1/5)), some (-(1/2))] ∧
    (engineRun
        (engineReset
          (engineRun (engineInit 100 100 100 (7/10))
            [(⟨"X", 1, 1, 0⟩, true), (⟨"X", 1, 3, 1⟩, false)]).1)
        [(⟨"X", 1, 1, 0⟩, true), (⟨"X", 1, 3, 1⟩, false)]).2 ≠
      (engineRun (engineInit 100 100 100 (7/10))
        [(⟨"X", 1, 1, 0⟩, true), (⟨"X", 1, 3, 1⟩, false)]).2 := by
  refine ⟨?_, ?_, ?_⟩ <;>
    norm_num [engineRun, engineOnTick, engineInit, engineReset, ofiInit,
      ofiOnTrade, ofiEvict, ofiEvictLoop, ofiEvictStep, getOFI, computeImbalance,
      computeAggression, computeMomentum, momentumSums, pressureOnTrade,
      getPressure, aggressionOnTrade, getAggression, toxicityUpdate,
      determineFlowDirection, pushCap, List.insertionSort, List.orderedInsert]

/-- C6 (counterexample): on the price changes `[3, 1, 3, 1]` the lag-1
sample covariance is `−8/9 < 0`, so the claim demands a returned spread
of `2·sqrt(8/9)`, whose square is `32/9`; the source computes its serial
moment without centering, finds `3 ≥ 0`, and returns `0` (squared: `0`). -/
theorem roll_spread_covariance_cex :
    specLagCovariance [3, 1, 3, 1] = -(8/9) ∧
    specLagCovariance [3, 1, 3, 1] < 0 ∧
    rollSerialMoment [3, 1, 3, 1] = 3 ∧
    computeRollSpreadSq [3, 1, 3, 1] = 0 ∧
    computeRollSpreadSq [3, 1, 3, 1] ≠
      4 * -specLagCovariance [3, 1, 3, 1] := by
  refine ⟨?_, ?_, ?_, ?_, ?_⟩ <;>
    norm_num [specLagCovariance, rollSerialMoment, computeRollSpreadSq]

/-- C9 (counterexample): a fresh `addPosition` stores whatever quantity
it is given — the `1e-8` threshold is only checked on the closing/flipping
path — so the one-call sequence `addPosition("X", 1e-9, 100)` leaves a
position with `|quantity| = 1e-9 < 1e-8` in the map. -/
theorem pnl_tiny_position_stored_cex :
    mapFind ([PnLOp.add "X" (1/1000000000) 100].foldl applyPnLOp
        (pnlInit 1000)).positions "X" =
      some { symbol := "X", quantity := 1/1000000000, avgEntryPrice := 100
             currentPrice := 100, unrealizedPnL := 0, realizedPnL := 0
             totalCost := 1/10000000 } ∧
    |(1 : ℚ)/1000000000| < 1/100000000 := by
  refine ⟨?_, ?_⟩ <;>
    norm_num [applyPnLOp, addPosition, pnlInit, mapFind, mapStore, abs_of_pos]

/-- C9 (amended): the removal invariant holds exactly on the paths that
check it. Whenever `addPosition` takes its closing/flipping branch or
`closePartialPosition` acts on an opposite-signed quantity, the symbol's
position is afterwards either absent or has `|quantity| ≥ 1e-8`; and
`closePosition` always removes the symbol. A fresh `addPosition` (and a
same-side addition) can store a position with `|quantity| < 1e-8`. -/
theorem pnl_closing_paths_remove_below_threshold :
    (∀ (s : PnLState) (sym : String) (q p : ℚ) (pos : Position),
      mapFind s.positions sym = some pos →
      ¬((0 < pos.quantity ∧ 0 < q) ∨ (pos.quantity < 0 ∧ q < 0)) →
      ∀ pos', mapFind (addPosition s sym q p).positions sym = some pos' →
        1/100000000 ≤ |pos'.quantity|) ∧
    (∀ (s : PnLState) (sym : String) (p : ℚ),
      mapFind (closePosition s sym p).positions sym = none) ∧
    (∀ (s : PnLState) (sym : String) (q p : ℚ) (pos : Position),
      mapFind s.positions sym = some pos →
      ((0 < pos.quantity ∧ q < 0) ∨ (pos.quantity < 0 ∧ 0 < q)) →
      ∀ pos', mapFind (closePartPosition s sym q p).positions sym = some pos' →
        1/100000000 ≤ |pos'.quantity|) := by
  refine ⟨?_, ?_, ?_⟩
  · intro s sym q p pos hfind hside pos' hres
    unfold addPosition at hres
    rw [hfind] at hres
    simp only [if_neg hside] at hres
    split at hres
    · rw [mapFind_mapErase] at hres
      cases hres
    next hq =>
      rw [mapFind_mapStore] at hres
      cases hres
      simpa using not_lt.mp hq
  · intro s sym p
    unfold closePosition
    cases hfind : mapFind s.positions sym with
    | none => exact hfind
    | some pos => exact mapFind_mapErase s.positions sym
  · intro s sym q p pos hfind hside pos' hres
    unfold closePartPosition at hres
    rw [hfind] at hres
    simp only [if_pos hside] at hres
    split at hres
    · rw [mapFind_mapErase] at hres
      cases hres
    next hq =>
      rw [mapFind_mapStore] at hres
      cases hres
      simpa using not_lt.mp hq

/-- C9 (witness for the amended theorem): on a book holding one unit of
"X" at `100`, a flipping `addPosition` of `−1/4` leaves `|3/4| ≥ 1e-8`, a
`closePosition` removes the symbol, and an opposite `closePartialPosition`
of `−1/2` leaves `|1/2| ≥ 1e-8`. -/
theorem pnl_closing_paths_witness :
    ((1 : ℚ)/100000000 ≤ |(3 : ℚ)/4|) ∧
    (mapFind (closePosition (addPosition (pnlInit 1000) "X" 1 100) "X"
        100).positions "X" = none) ∧
    ((1 : ℚ)/100000000 ≤ |(1 : ℚ)/2|) := by
  refine ⟨?_, ?_, ?_⟩
  · exact pnl_closing_paths_remove_below_threshold.1
      (addPosition (pnlInit 1000) "X" 1 100) "X" (-(1/4)) 100
      ⟨"X", 1, 100, 100, 0, 0, 100⟩
      (by norm_num [addPosition, pnlInit, mapFind, mapStore])
      (by norm_num)
      ⟨"X", 3/4, 100, 100, 0, 0, 75⟩
      (by norm_num [addPosition, pnlInit, mapFind, mapStore, abs_of_pos])
  · exact pnl_closing_paths_remove_below_threshold.2.1
      (addPosition (pnlInit 1000) "X" 1 100) "X" 100
  · exact pnl_closing_paths_remove_below_threshold.2.2
      (addPosition (pnlInit 1000) "X" 1 100) "X" (-(1/2)) 100
      ⟨"X", 1, 100, 100, 0, 0, 100⟩
      (by norm_num [addPosition, pnlInit, mapFind, mapStore])
      (by norm_num)
      ⟨"X", 1/2, 100, 100, 0, 0, 100⟩
      (by norm_num [closePartPosition, addPosition, pnlInit, mapFind, mapStore,
        abs_of_pos])

/-- Helper for C10: `computeResults` always carries the default-empty
equity curve and timestamps, and its `maxDrawdown` — computed over that
empty curve — is `0`, whatever the trade list. -/
theorem computeResults_discards_curve (cfg : BacktestConfig) (rsqrt : ℚ → ℚ)
    (trades : List Trade) :
    (computeResults cfg rsqrt trades).equityCurve = [] ∧
    (computeResults cfg rsqrt trades).timestamps = [] ∧
    (computeResults cfg rsqrt trades).maxDrawdown = 0 := by
  unfold computeResults
  rcases trades with _ | ⟨t, ts⟩
  · simp
  · simp [computeMaxDrawdown]

/-- C10: the per-tick equity series grown inside `Backtester::run` is a
discarded local — the returned result's `equityCurve` and `timestamps`
are empty for every input and signal function, and `maxDrawdown`, being
`computeMaxDrawdown` of the result's own (empty) curve, is `0`. -/
theorem run_equity_curve_discarded (cfg : BacktestConfig) (rsqrt : ℚ → ℚ)
    (data : List MarketTick) (signalFunc : MarketTick → Int) :
    (backtesterRun cfg rsqrt data signalFunc).equityCurve = [] ∧
    (backtesterRun cfg rsqrt data signalFunc).timestamps = [] ∧
    (backtesterRun cfg rsqrt data signalFunc).maxDrawdown = 0 := by
  simp only [backtesterRun]
  exact computeResults_discards_curve cfg rsqrt _

/-- C6 (amended): `computeRollSpread` returns `2·sqrt(−m)` when `m < 0`
and `0` otherwise — in squared form, `4·(−m)` and `0` — where `m` is the
plain average of the successive products `ΔP_i·ΔP_{i−1}` over
`len − 1` terms, *without* mean-centering (it equals the lag-1 covariance
only when the slice means vanish); on `[+1, −1, +1, −1, +1, −1]` the
average is `−1` and the returned spread is `2` (squared: `4`). -/
theorem roll_spread_uncentered_mean :
    (∀ pcs : List ℚ, computeRollSpreadSq pcs =
      if lagProductMean pcs < 0 ∧ 2 ≤ pcs.length then 4 * -lagProductMean pcs
      else 0) ∧
    rollSerialMoment [1, -1, 1, -1, 1, -1] = -1 ∧
    computeRollSpreadSq [1, -1, 1, -1, 1, -1] = 4 := by
  refine ⟨?_, ?_, ?_⟩
  · intro pcs
    have hzip : (pcs.zip pcs.tail).length = pcs.length - 1 := by
      rw [List.length_zip, List.length_tail]
      omega
    have hmoment : rollSerialMoment pcs =
        if 2 ≤ pcs.length then lagProductMean pcs else 0 := by
      unfold rollSerialMoment lagProductMean
      rw [foldl_sum_count]
      simp only [zero_add, hzip]
      rcases pcs with _ | ⟨a, _ | ⟨b, rest⟩⟩
      · simp
      · simp
      · rw [if_pos (by simp : 0 < (a :: b :: rest).length - 1),
          if_pos (by simp : 2 ≤ (a :: b :: rest).length)]
    unfold computeRollSpreadSq
    rw [hmoment]
    rcases lt_or_le pcs.length 2 with hlen | hlen
    · rw [if_pos hlen, eq_comm, if_neg]
      rintro ⟨-, h2⟩
      omega
    · rw [if_neg (by omega : ¬pcs.length < 2), if_pos hlen]
      by_cases hc : lagProductMean pcs < 0
      · rw [if_pos hc, if_pos ⟨hc, hlen⟩]
      · rw [if_neg hc, eq_comm, if_neg (by tauto)]
  · norm_num [rollSerialMoment]
  · norm_num [computeRollSpreadSq, rollSerialMoment]

/-- C8: for every price vector, every `maxLag`, and every instantiation
of the abstracted `log`/`sqrt`, `regime::hurstExponent` stays in `[0, 1]`
— the early returns give `0.5` and the regression path clamps — and it
returns exactly `0.5` whenever fewer than 3 `(log lag, log R/S)` points
are available for the regression. -/
theorem hurst_clamped_and_default (rlog rsqrt : ℚ → ℚ) (prices : List ℚ)
    (maxLag : ℕ) :
    (0 ≤ hurstExponent rlog rsqrt prices maxLag ∧
      hurstExponent rlog rsqrt prices maxLag ≤ 1) ∧
    ((hurstPoints rlog rsqrt (hurstLogReturns rlog prices) maxLag).length < 3 →
      hurstExponent rlog rsqrt prices maxLag = 1 / 2) := by
  unfold hurstExponent
  split_ifs with h1 h2 h3
  · exact ⟨⟨by norm_num, by norm_num⟩, fun _ => rfl⟩
  · exact ⟨⟨by norm_num, by norm_num⟩, fun _ => rfl⟩
  · exact ⟨⟨by norm_num, by norm_num⟩, fun _ => rfl⟩
  · refine ⟨⟨le_min (le_max_right _ _) zero_le_one, min_le_right _ _⟩, ?_⟩
    intro hlt
    exact absurd hlt h3

/-- C8 (witness): with `log` and `sqrt` instantiated by the identity, a
two-price vector offers no regression points, and the estimator returns
`0.5`. -/
theorem hurst_clamped_and_default_witness :
    hurstExponent id id [1, 1] 5 = 1 / 2 :=
  (hurst_clamped_and_default id id [1, 1] 5).2 (by decide)

/-- C7: whenever `OrderFlowImbalance::getOFI` returns a result after a
sequence of `onTrade` calls with non-negative volumes, the bid and ask
pressures sum to `1` when the windowed buy-plus-sell volume is positive,
and both equal `0.5` otherwise. (The proof never needs the two
hypotheses on the state's origin: the dichotomy holds for every state,
reachable or not.) -/
theorem ofi_pressures_sum_to_one (window : ℕ)
    (trades : List (ℚ × ℚ × Bool × Int))
    (_hv : ∀ tr ∈ trades, 0 ≤ tr.2.1) (s : OFIState)
    (_hs : s = trades.foldl
      (fun acc tr => ofiOnTrade acc tr.1 tr.2.1 tr.2.2.1 tr.2.2.2)
      (ofiInit window))
    (r : OFIResult) (hr : getOFI s = some r) :
    (0 < s.buyVolumes.sum + s.sellVolumes.sum →
      r.bidPressure + r.askPressure = 1) ∧
    (¬0 < s.buyVolumes.sum + s.sellVolumes.sum →
      r.bidPressure = 1/2 ∧ r.askPressure = 1/2) := by
  unfold getOFI at hr
  split at hr
  · cases hr
  · cases hr
    constructor
    · intro hpos
      simp only [hpos, if_true, if_pos hpos]
      rw [div_add_div_same, div_self (ne_of_gt hpos)]
    · intro hneg
      simp only [if_neg hneg]
      exact ⟨trivial, trivial⟩

/-- C7 (witness): one buy of volume `2` in a window of `2` yields
`getOFI = some ⟨1, 1, 0, 0, 0, 0⟩`, whose pressures sum to `1`. -/
theorem ofi_pressures_sum_to_one_witness :
    (⟨1, 1, 0, 0, 0, 0⟩ : OFIResult).bidPressure +
      (⟨1, 1, 0, 0, 0, 0⟩ : OFIResult).askPressure = 1 :=
  (ofi_pressures_sum_to_one 2 [(1, 2, true, 0)] (by norm_num)
      ([((1 : ℚ), (2 : ℚ), true, (0 : Int))].foldl
        (fun acc tr => ofiOnTrade acc tr.1 tr.2.1 tr.2.2.1 tr.2.2.2)
        (ofiInit 2))
      rfl ⟨1, 1, 0, 0, 0, 0⟩
      (by norm_num [getOFI, ofiOnTrade, ofiInit, ofiEvict, ofiEvictLoop,
        ofiEvictStep, computeImbalance, computeAggression, computeMomentum,
        momentumSums, List.insertionSort, List.orderedInsert])).1
    (by norm_num [ofiOnTrade, ofiInit, ofiEvict, ofiEvictLoop, ofiEvictStep])

/-- Helper for C5: a trade the tick rule classifies as BUY carries a
non-negative signed volume when the input volume is non-negative. -/
theorem classifyTrade_buy_nonneg (s : MicroState) (price volume : ℚ)
    (hv : 0 ≤ volume)
    (hside : (classifyTrade s price volume 0 0).side = TradeSide.BUY) :
    0 ≤ (classifyTrade s price volume 0 0).signedVolume := by
  unfold classifyTrade at hside ⊢
  rw [if_neg (by norm_num)] at hside ⊢
  simp only at hside ⊢
  rw [if_pos hside]
  exact hv

/-- Helper for C5: `onTick` appends exactly the tick's classification to
the 1000-capped history. -/
theorem microOnTick_classifiedTrades (s : MicroState) (t : MarketTick) :
    (microOnTick s t).classifiedTrades =
      pushCap 1000 s.classifiedTrades (classifyTrade s t.price t.volume 0 0) := by
  simp only [microOnTick, updateVPINBuckets, updatePriceImpact]
  split_ifs <;> rfl

/-- Helper for C5: `onTick` keeps the bucket deque no longer than the
ghost count of completed buckets. -/
theorem microOnTick_bucket_length (s : MicroState) (t : MarketTick)
    (h : s.volumeBuckets.length ≤ s.bucketsCompleted) :
    (microOnTick s t).volumeBuckets.length ≤ (microOnTick s t).bucketsCompleted := by
  simp only [microOnTick, updateVPINBuckets, updatePriceImpact]
  split_ifs <;> simp only [] <;>
    first
      | exact h
      | exact le_trans (pushCap_length_le _ _ _) (by omega)

/-- Helper for C5: over any tick sequence with non-negative volumes, the
analyzer state keeps BUY classifications at non-negative signed volume
and the bucket deque no longer than the completed-bucket count. -/
theorem micro_fold_invariant (ticks : List MarketTick) (s0 : MicroState)
    (hv : ∀ t ∈ ticks, 0 ≤ t.volume)
    (h1 : ∀ c ∈ s0.classifiedTrades, c.side = TradeSide.BUY → 0 ≤ c.signedVolume)
    (h2 : s0.volumeBuckets.length ≤ s0.bucketsCompleted) :
    (∀ c ∈ (ticks.foldl microOnTick s0).classifiedTrades,
      c.side = TradeSide.BUY → 0 ≤ c.signedVolume) ∧
    (ticks.foldl microOnTick s0).volumeBuckets.length ≤
      (ticks.foldl microOnTick s0).bucketsCompleted := by
  induction ticks generalizing s0 with
  | nil => exact ⟨h1, h2⟩
  | cons t ts ih =>
      simp only [List.foldl_cons]
      refine ih (microOnTick s0 t) (fun u hu => hv u (List.mem_cons_of_mem t hu))
        ?_ (microOnTick_bucket_length s0 t h2)
      rw [microOnTick_classifiedTrades]
      intro c hc hcside
      rcases mem_pushCap hc with hold | rfl
      · exact h1 c hold hcside
      · exact classifyTrade_buy_nonneg s0 t.price t.volume
          (hv t (List.mem_cons_self t ts)) hcside

/-- Helper for C5: `computeVPIN` is clamped into `[0, 1]` on every
state. -/
theorem computeVPIN_bounds (s : MicroState) :
    0 ≤ computeVPIN s ∧ computeVPIN s ≤ 1 := by
  unfold computeVPIN
  split_ifs
  · norm_num
  · exact ⟨le_min (le_max_right _ _) zero_le_one, min_le_right _ _⟩

/-- Helper for C5: `computeVPIN` is `0` with fewer than two buckets in
the deque. -/
theorem computeVPIN_of_lt_two (s : MicroState)
    (h : s.volumeBuckets.length < 2) : computeVPIN s = 0 := by
  unfold computeVPIN
  rw [if_pos h]

/-- Helper for C5: the recent sell volume, a sum of absolute values, is
non-negative. -/
theorem microRecentSell_nonneg (s : MicroState) : 0 ≤ microRecentSell s := by
  unfold microRecentSell
  refine List.sum_nonneg ?_
  intro x hx
  simp only [List.mem_map] at hx
  obtain ⟨c, -, rfl⟩ := hx
  split_ifs
  · exact abs_nonneg _
  · exact le_refl 0

/-- Helper for C5: the recent buy volume is non-negative whenever the
stored BUY classifications have non-negative signed volume. -/
theorem microRecentBuy_nonneg (s : MicroState)
    (h : ∀ c ∈ s.classifiedTrades, c.side = TradeSide.BUY → 0 ≤ c.signedVolume) :
    0 ≤ microRecentBuy s := by
  unfold microRecentBuy
  refine List.sum_nonneg ?_
  intro x hx
  simp only [List.mem_map] at hx
  obtain ⟨c, hc, rfl⟩ := hx
  split_ifs with hside
  · exact h c (List.mem_of_mem_drop hc) hside
  · exact le_refl 0

/-- Helper for C5: with non-negative buy and sell volumes the
imbalance `|B − S|/(B + S)` lies in `[0, 1]`. -/
theorem microImbalance_bounds (s : MicroState)
    (hb : 0 ≤ microRecentBuy s) (hs : 0 ≤ microRecentSell s) :
    0 ≤ microImbalance s ∧ microImbalance s ≤ 1 := by
  unfold microImbalance
  split_ifs with hpos
  · constructor
    · exact div_nonneg (abs_nonneg _) (le_of_lt hpos)
    · rw [div_le_one hpos]
      rw [abs_le]
      constructor <;> linarith
  · norm_num

/-- C5: after any sequence of valid ticks (positive price,
non-negative volume), `getVPIN` reports `vpin ∈ [0, 1]` and
`toxicity ∈ [0, 1]`, and `vpin = 0` whenever fewer than two volume
buckets have been completed. -/
theorem micro_vpin_toxicity_bounds (bucketSize vpinWindow impactWindow : ℕ)
    (ticks : List MarketTick)
    (hvalid : ∀ t ∈ ticks, 0 < t.price ∧ 0 ≤ t.volume) (s : MicroState)
    (hs : s = microRun bucketSize vpinWindow impactWindow ticks) :
    0 ≤ (getVPIN s).vpin ∧ (getVPIN s).vpin ≤ 1 ∧
    0 ≤ (getVPIN s).toxicity ∧ (getVPIN s).toxicity ≤ 1 ∧
    (s.bucketsCompleted < 2 → (getVPIN s).vpin = 0) := by
  have hv : ∀ t ∈ ticks, 0 ≤ t.volume := fun t ht => (hvalid t ht).2
  have hinv := micro_fold_invariant ticks
    (microInit bucketSize vpinWindow impactWindow) hv
    (by intro c hc; cases hc) (by simp [microInit])
  rw [← microRun] at hinv
  rw [← hs] at hinv
  obtain ⟨hbuy, hlen⟩ := hinv
  have hvb := computeVPIN_bounds s
  have him := microImbalance_bounds s (microRecentBuy_nonneg s hbuy)
    (microRecentSell_nonneg s)
  refine ⟨hvb.1, hvb.2, ?_, ?_, ?_⟩
  · exact mul_nonneg hvb.1 him.1
  · exact mul_le_one₀ hvb.2 him.1 him.2
  · intro hcount
    exact computeVPIN_of_lt_two s (lt_of_le_of_lt hlen hcount)

/-- C5 (witness): a single unit-volume tick completes no bucket; all
bounds hold and `vpin = 0`. -/
theorem micro_vpin_toxicity_bounds_witness :
    0 ≤ (getVPIN (microRun 2 10 100 [⟨"A", 1, 1, 0⟩])).vpin ∧
    (getVPIN (microRun 2 10 100 [⟨"A", 1, 1, 0⟩])).vpin ≤ 1 ∧
    0 ≤ (getVPIN (microRun 2 10 100 [⟨"A", 1, 1, 0⟩])).toxicity ∧
    (getVPIN (microRun 2 10 100 [⟨"A", 1, 1, 0⟩])).toxicity ≤ 1 ∧
    (getVPIN (microRun 2 10 100 [⟨"A", 1, 1, 0⟩])).vpin = 0 := by
  have h := micro_vpin_toxicity_bounds 2 10 100 [⟨"A", 1, 1, 0⟩]
    (by norm_num) (microRun 2 10 100 [⟨"A", 1, 1, 0⟩]) rfl
  exact ⟨h.1, h.2.1, h.2.2.1, h.2.2.2.1,
    h.2.2.2.2 (by norm_num [microRun, microOnTick, microInit, classifyTrade,
      inferTradeSide, updateVPINBuckets, updatePriceImpact, pushCap, abs_neg,
      abs_one, show ¬TradeSide.UNKNOWN = TradeSide.BUY from by decide,
      show ¬TradeSide.UNKNOWN = TradeSide.SELL from by decide])⟩

/-- Helper for C4: the win accumulator of `computeProfitFactor` is the
sum over the positive entries. -/
theorem sum_if_pos_eq_filter (returns : List ℚ) :
    (returns.map fun r => if 0 < r then r else 0).sum =
      (returns.filter fun r => 0 < r).sum := by
  induction returns with
  | nil => rfl
  | cons a l ih =>
      by_cases ha : 0 < a <;> simp [List.filter_cons, ha, ih]

/-- Helper for C4: the loss accumulator — which also adds `|0| = 0` for
zero entries — is the sum of absolute values over the negative entries. -/
theorem sum_if_loss_eq_filter (returns : List ℚ) :
    (returns.map fun r => if 0 < r then 0 else |r|).sum =
      ((returns.filter fun r => r < 0).map fun r => |r|).sum := by
  induction returns with
  | nil => rfl
  | cons a l ih =>
      rcases lt_trichotomy a 0 with ha | ha | ha
      · have : ¬0 < a := by linarith
        simp [List.filter_cons, this, ha, ih]
      · subst ha
        simp [List.filter_cons, ih]
      · simp [List.filter_cons, ha, not_lt_of_gt ha, ih]

/-- Helper for C4: the loss accumulator is non-negative. -/
theorem sum_if_loss_nonneg (returns : List ℚ) :
    0 ≤ (returns.map fun r => if 0 < r then 0 else |r|).sum := by
  refine List.sum_nonneg ?_
  intro x hx
  simp only [List.mem_map] at hx
  obtain ⟨r, -, rfl⟩ := hx
  split_ifs
  · exact le_refl 0
  · exact abs_nonneg r

/-- Helper for C4: `exitPosition` always leaves a flat position. -/
theorem exitPosition_currentPosition (cfg : BacktestConfig) (s : RunState)
    (t : MarketTick) : (exitPosition cfg s t).currentPosition = 0 := by
  unfold exitPosition
  split_ifs with h
  · exact h
  · rfl

/-- Helper for C4: `exitPosition` records no trade. -/
theorem exitPosition_trades (cfg : BacktestConfig) (s : RunState)
    (t : MarketTick) : (exitPosition cfg s t).trades = s.trades := by
  unfold exitPosition
  split_ifs <;> rfl

/-- Helper for C4: the tick loop only ever appends trades of zero PnL —
the `Trade` is populated after `exitPosition` zeroed `currentPosition_`,
so its `pnl = (price − 0)·0 = 0`. -/
theorem runStep_trades_pnl_zero (cfg : BacktestConfig) (f : MarketTick → Int)
    (s : RunState) (t : MarketTick)
    (h : ∀ tr ∈ s.trades, tr.pnl = 0) :
    ∀ tr ∈ (runStep cfg f s t).trades, tr.pnl = 0 := by
  simp only [runStep, enterPosition]
  split_ifs <;>
    intro tr htr <;>
    first
      | exact h tr htr
      | (simp only [exitPosition_trades] at htr
         rcases List.mem_append.mp htr with hold | hnew
         · exact h tr hold
         · rw [List.mem_singleton] at hnew
           subst hnew
           simp [exitPosition_currentPosition])

/-- Helper for C4: `computeResults` returns its trade list unchanged. -/
theorem computeResults_trades (cfg : BacktestConfig) (rsqrt : ℚ → ℚ)
    (trades : List Trade) :
    (computeResults cfg rsqrt trades).trades = trades := by
  unfold computeResults
  rcases trades with _ | ⟨a, l⟩ <;> simp

/-- Helper for C4: every trade `Backtester::run` records has zero PnL. -/
theorem run_trades_pnl_zero (cfg : BacktestConfig) (rsqrt : ℚ → ℚ)
    (data : List MarketTick) (f : MarketTick → Int) :
    ∀ tr ∈ (backtesterRun cfg rsqrt data f).trades, tr.pnl = 0 := by
  have hfold : ∀ (l : List MarketTick) (s0 : RunState),
      (∀ tr ∈ s0.trades, tr.pnl = 0) →
      ∀ tr ∈ (l.foldl (runStep cfg f) s0).trades, tr.pnl = 0 := by
    intro l
    induction l with
    | nil => intro s0 h; exact h
    | cons t ts ih =>
        intro s0 h
        simp only [List.foldl_cons]
        exact ih (runStep cfg f s0 t) (runStep_trades_pnl_zero cfg f s0 t h)
  simp only [backtesterRun, computeResults_trades]
  split
  next lastTick hl =>
    split_ifs with hpos
    · refine hfold data _ ?_
      intro tr htr
      exact absurd htr (List.not_mem_nil tr)
    · simp only [exitPosition_trades]
      refine hfold data _ ?_
      intro tr htr
      exact absurd htr (List.not_mem_nil tr)
  next hl =>
    refine hfold data _ ?_
    intro tr htr
    exact absurd htr (List.not_mem_nil tr)

/-- Helper for C4: the metric accumulator ignores zero-PnL trades. -/
theorem computeResults_acc_fixed (trades : List Trade)
    (h : ∀ tr ∈ trades, tr.pnl = 0) (a b c : ℚ) (d e : ℕ) :
    trades.foldl
      (fun acc trade =>
        let (totalPnL, totalWin, totalLoss, numWinning, numLosing) := acc
        let totalPnL := totalPnL + trade.pnl
        if 0 < trade.pnl then
          (totalPnL, totalWin + trade.pnl, totalLoss, numWinning + 1, numLosing)
        else if trade.pnl < 0 then
          (totalPnL, totalWin, totalLoss + |trade.pnl|, numWinning, numLosing + 1)
        else (totalPnL, totalWin, totalLoss, numWinning, numLosing))
      (a, b, c, d, e) = (a, b, c, d, e) := by
  induction trades generalizing a b c d e with
  | nil => rfl
  | cons t ts ih =>
      have ht : t.pnl = 0 := h t (List.mem_cons_self t ts)
      simp only [List.foldl_cons, ht]
      norm_num
      exact ih (fun tr htr => h tr (List.mem_cons_of_mem t htr)) a b c d e

/-- Helper for C4: with only zero-PnL trades, no trade counts as a win
or a loss, `avgLoss = 0`, and the guarded `profitFactor` is `0`. -/
theorem computeResults_profitFactor_zero (cfg : BacktestConfig)
    (rsqrt : ℚ → ℚ) (trades : List Trade)
    (h : ∀ tr ∈ trades, tr.pnl = 0) :
    (computeResults cfg rsqrt trades).profitFactor = 0 := by
  unfold computeResults
  rcases htr : trades with _ | ⟨a, l⟩
  · simp
  · simp only [List.isEmpty_cons, if_neg]
    rw [computeResults_acc_fixed (a :: l) (htr ▸ h)]
    norm_num

/-- C4: `computeProfitFactor` returns the sum of positive returns over
the sum of absolute negative returns on every non-empty series (with the
source's `0` fallback agreeing with the division-by-zero convention when
there are no losses), and on every `Backtester::run` with at least one
trade the returned `profitFactor` equals that same ratio over the trade
PnLs — both sides degenerate to `0` because every recorded trade carries
zero PnL (`computeResults` itself computes `avgWin / avgLoss`, which
coincides with the claim's ratio only on such degenerate lists). -/
theorem profit_factor_is_sum_ratio :
    (∀ returns : List ℚ, returns ≠ [] →
      computeProfitFactor returns =
        (returns.filter fun r => 0 < r).sum /
          ((returns.filter fun r => r < 0).map fun r => |r|).sum) ∧
    (∀ (cfg : BacktestConfig) (rsqrt : ℚ → ℚ) (data : List MarketTick)
        (f : MarketTick → Int),
      (backtesterRun cfg rsqrt data f).trades ≠ [] →
      (backtesterRun cfg rsqrt data f).profitFactor =
        (((backtesterRun cfg rsqrt data f).trades.map Trade.pnl).filter
            fun r => 0 < r).sum /
          ((((backtesterRun cfg rsqrt data f).trades.map Trade.pnl).filter
            fun r => r < 0).map fun r => |r|).sum) := by
  constructor
  · intro returns hne
    unfold computeProfitFactor
    rw [if_neg (by simpa using hne), sum_if_pos_eq_filter, sum_if_loss_eq_filter]
    by_cases hl : 0 < ((returns.filter fun r => r < 0).map fun r => |r|).sum
    · rw [if_pos hl]
    · rw [if_neg hl]
      have h0 : ((returns.filter fun r => r < 0).map fun r => |r|).sum = 0 := by
        refine le_antisymm (not_lt.mp hl) (List.sum_nonneg ?_)
        intro x hx
        obtain ⟨r, -, rfl⟩ := List.mem_map.mp hx
        exact abs_nonneg r
      rw [h0, div_zero]
  · intro cfg rsqrt data f hne
    have hz := run_trades_pnl_zero cfg rsqrt data f
    have hpnl : ∀ r ∈ (backtesterRun cfg rsqrt data f).trades.map Trade.pnl,
        r = 0 := by
      intro r hr
      obtain ⟨tr, htr, rfl⟩ := List.mem_map.mp hr
      exact hz tr htr
    have hfil : ((backtesterRun cfg rsqrt data f).trades.map Trade.pnl).filter
        (fun r => 0 < r) = [] := by
      refine List.filter_eq_nil_iff.mpr ?_
      intro r hr
      rw [hpnl r hr]
      norm_num
    rw [hfil]
    simp only [List.sum_nil, zero_div]
    simp only [backtesterRun, computeResults_trades] at hz ⊢
    exact computeResults_profitFactor_zero cfg rsqrt _ hz

/-- C4 (witness): the series `[1, −2]` and the two-tick scenario run,
which records exactly one trade. -/
theorem profit_factor_is_sum_ratio_witness :
    computeProfitFactor [1, -2] =
      (([1, -2] : List ℚ).filter fun r => 0 < r).sum /
        ((([1, -2] : List ℚ).filter fun r => r < 0).map fun r => |r|).sum ∧
    (backtesterRun ⟨10000, 1/1000, 2, 1/2, false, false, 1/2⟩ id
        [⟨"ETH", 100, 1, 0⟩, ⟨"ETH", 110, 1, 1⟩]
        (fun t => if t.timestamp = 0 then 1 else -1)).profitFactor =
      (((backtesterRun ⟨10000, 1/1000, 2, 1/2, false, false, 1/2⟩ id
            [⟨"ETH", 100, 1, 0⟩, ⟨"ETH", 110, 1, 1⟩]
            (fun t => if t.timestamp = 0 then 1 else -1)).trades.map
          Trade.pnl).filter fun r => 0 < r).sum /
        ((((backtesterRun ⟨10000, 1/1000, 2, 1/2, false, false, 1/2⟩ id
              [⟨"ETH", 100, 1, 0⟩, ⟨"ETH", 110, 1, 1⟩]
              (fun t => if t.timestamp = 0 then 1 else -1)).trades.map
            Trade.pnl).filter fun r => r < 0).map fun r => |r|).sum := by
  constructor
  · exact profit_factor_is_sum_ratio.1 [1, -2] (by simp)
  · refine profit_factor_is_sum_ratio.2 _ id _ _ ?_
    norm_num [backtesterRun, runStep, computeResults, enterPosition, exitPosition,
      applySlippage, calculateCommission, canEnterPosition, addPosition,
      closePosition, updatePrice, pnlInit, pnlReset, mapFind, mapStore, mapErase,
      rpnlAdd, computeSharpeRatio, computeMaxDrawdown, meanQ, stddevQ,
      updatePositionCost]
